import Mathlib

/-!
Shallow embedding of the signaling coordinator of the `videocalling`
repository (`src/server/trpc/router/index.ts`, the `roomRouter`).

The coordinator keeps an in-memory `Map<string, Room>` of rooms; each room
maps peer ids to a mailbox `{ offers; answers; iceCandidates }` where
`offers` / `answers` map a target peer id to a single pending payload string
and `iceCandidates` maps a target peer id to a queue of payload strings.

JavaScript string-keyed objects and `Map`s are modelled as association
lists with insertion-order semantics: `jsGet` reads the (first) binding of a
key, `jsSet` overwrites an existing binding in place or appends a new one at
the end, exactly as property assignment / `Map.set` behave.  JavaScript
truthiness of a string (`""` is falsy) is modelled explicitly where the
source branches on it.
-/

abbrev PeerId := String

abbrev RoomId := String

/-- Read a key from a JS object / Map modelled as an association list. -/
def jsGet {α : Type} : List (String × α) → String → Option α
  | [], _ => none
  | (k', v) :: rest, k => if k' = k then some v else jsGet rest k

/-- Write a key into a JS object / Map: overwrite the existing binding in
place, or append a fresh binding at the end (JS insertion order). -/
def jsSet {α : Type} : List (String × α) → String → α → List (String × α)
  | [], k, v => [(k, v)]
  | (k', v') :: rest, k, v =>
    if k' = k then (k', v) :: rest else (k', v') :: jsSet rest k v

/-- One participant's mailbox inside a room
(`Room.participants[peerId]` in the source). -/
structure Mailbox where
  offers : List (PeerId × String)
  answers : List (PeerId × String)
  iceCandidates : List (PeerId × List String)
deriving Repr, DecidableEq

/-- A room: its id and the map from peer id to mailbox. -/
structure Room where
  id : RoomId
  participants : List (PeerId × Mailbox)
deriving Repr, DecidableEq

/-- The whole coordinator state: the module-level `rooms` map. -/
structure SigState where
  rooms : List (RoomId × Room)
deriving Repr, DecidableEq

/-- The two error conditions the router throws: `Room ... not found` and
`Peer ... not found in room ...`. -/
inductive SigError where
  | NotFound
  | PeerNotFound
deriving Repr, DecidableEq

/-- A freshly-joined participant's mailbox
(`{ offers: {}, answers: {}, iceCandidates: {} }`). -/
def emptyMailbox : Mailbox :=
  { offers := [], answers := [], iceCandidates := [] }

/-- `createRoom`: register an empty room under the freshly generated id
(the uuid is a parameter here) and return the id. -/
def createRoom (s : SigState) (roomId : RoomId) : RoomId × SigState :=
  (roomId, ⟨jsSet s.rooms roomId { id := roomId, participants := [] }⟩)

/-- `joinRoom`: fail if the room is unknown; otherwise create the peer's
mailbox if absent and return the list of all other peer ids. -/
def joinRoom (s : SigState) (roomId : RoomId) (peerId : PeerId) :
    Except SigError (List PeerId × SigState) :=
  match jsGet s.rooms roomId with
  | none => .error .NotFound
  | some room =>
    let participants :=
      match jsGet room.participants peerId with
      | none => jsSet room.participants peerId emptyMailbox
      | some _ => room.participants
    let room' := { room with participants := participants }
    let otherPeers := (participants.map Prod.fst).filter (fun pid => pid != peerId)
    .ok (otherPeers, ⟨jsSet s.rooms roomId room'⟩)

/-- `sendOffer`: fail if the room is unknown, fail if the sender has no
mailbox, otherwise store the offer under the target peer id
(`participants[fromPeerId].offers[toPeerId] = offer`, last write wins). -/
def sendOffer (s : SigState) (roomId : RoomId) (fromPeerId toPeerId : PeerId)
    (offer : String) : Except SigError (Unit × SigState) :=
  match jsGet s.rooms roomId with
  | none => .error .NotFound
  | some room =>
    match jsGet room.participants fromPeerId with
    | none => .error .PeerNotFound
    | some mb =>
      let mb' := { mb with offers := jsSet mb.offers toPeerId offer }
      .ok ((), ⟨jsSet s.rooms roomId
        { room with participants := jsSet room.participants fromPeerId mb' }⟩)

/-- `sendAnswer`: same shape as `sendOffer`, storing into `answers`. -/
def sendAnswer (s : SigState) (roomId : RoomId) (fromPeerId toPeerId : PeerId)
    (answer : String) : Except SigError (Unit × SigState) :=
  match jsGet s.rooms roomId with
  | none => .error .NotFound
  | some room =>
    match jsGet room.participants fromPeerId with
    | none => .error .PeerNotFound
    | some mb =>
      let mb' := { mb with answers := jsSet mb.answers toPeerId answer }
      .ok ((), ⟨jsSet s.rooms roomId
        { room with participants := jsSet room.participants fromPeerId mb' }⟩)

/-- `sendIceCandidate`: fail as the other sends do; initialise the queue for
`toPeerId` to `[]` if absent, then push the candidate at its end. -/
def sendIceCandidate (s : SigState) (roomId : RoomId) (fromPeerId toPeerId : PeerId)
    (candidate : String) : Except SigError (Unit × SigState) :=
  match jsGet s.rooms roomId with
  | none => .error .NotFound
  | some room =>
    match jsGet room.participants fromPeerId with
    | none => .error .PeerNotFound
    | some mb =>
      let queue := ((jsGet mb.iceCandidates toPeerId).getD []) ++ [candidate]
      let mb' := { mb with iceCandidates := jsSet mb.iceCandidates toPeerId queue }
      .ok ((), ⟨jsSet s.rooms roomId
        { room with participants := jsSet room.participants fromPeerId mb' }⟩)

/-- The `forEach` loop of `getOffers`: scan every participant in order and
collect `(fromPeerId, offer)` for each mailbox whose entry for `peerId` is
truthy (present and nonempty) and whose owner is not `peerId` itself. -/
def collectOffers : List (PeerId × Mailbox) → PeerId → List (PeerId × String)
  | [], _ => []
  | (fromPeerId, data) :: rest, peerId =>
    (match jsGet data.offers peerId with
     | some o => if fromPeerId ≠ peerId ∧ o ≠ "" then [(fromPeerId, o)] else []
     | none => []) ++ collectOffers rest peerId

/-- The `forEach` loop of `getAnswers`, same shape as `collectOffers`. -/
def collectAnswers : List (PeerId × Mailbox) → PeerId → List (PeerId × String)
  | [], _ => []
  | (fromPeerId, data) :: rest, peerId =>
    (match jsGet data.answers peerId with
     | some a => if fromPeerId ≠ peerId ∧ a ≠ "" then [(fromPeerId, a)] else []
     | none => []) ++ collectAnswers rest peerId

/-- The `forEach` loop of `getIceCandidates`: collect each other peer's
nonempty queue addressed to `peerId` and reset that queue to `[]` in place;
returns the collected batch together with the updated participants map. -/
def drainCandidates : List (PeerId × Mailbox) → PeerId →
    List (PeerId × List String) × List (PeerId × Mailbox)
  | [], _ => ([], [])
  | (fromPeerId, data) :: rest, peerId =>
    let tail := drainCandidates rest peerId
    let queue := (jsGet data.iceCandidates peerId).getD []
    if fromPeerId ≠ peerId ∧ queue ≠ [] then
      ((fromPeerId, queue) :: tail.1,
       (fromPeerId,
         { data with iceCandidates := jsSet data.iceCandidates peerId [] }) :: tail.2)
    else
      (tail.1, (fromPeerId, data) :: tail.2)

/-- `getOffers`: fail if the room is unknown, otherwise return the collected
offers.  The source mutates nothing here, so the state comes back unchanged. -/
def getOffers (s : SigState) (roomId : RoomId) (peerId : PeerId) :
    Except SigError (List (PeerId × String) × SigState) :=
  match jsGet s.rooms roomId with
  | none => .error .NotFound
  | some room => .ok (collectOffers room.participants peerId, s)

/-- `getAnswers`: same shape as `getOffers`. -/
def getAnswers (s : SigState) (roomId : RoomId) (peerId : PeerId) :
    Except SigError (List (PeerId × String) × SigState) :=
  match jsGet s.rooms roomId with
  | none => .error .NotFound
  | some room => .ok (collectAnswers room.participants peerId, s)

/-- `getIceCandidates`: fail if the room is unknown, otherwise return the
drained batch and write the room (with the cleared queues) back. -/
def getIceCandidates (s : SigState) (roomId : RoomId) (peerId : PeerId) :
    Except SigError (List (PeerId × List String) × SigState) :=
  match jsGet s.rooms roomId with
  | none => .error .NotFound
  | some room =>
    let r := drainCandidates room.participants peerId
    .ok (r.1, ⟨jsSet s.rooms roomId { room with participants := r.2 }⟩)

/-- One call to any of the seven room-scoped endpoints, with its
non-`roomId` arguments (used to state room isolation uniformly). -/
inductive OpCall where
  | join (peerId : PeerId)
  | sOffer (fromPeerId toPeerId offer : String)
  | sAnswer (fromPeerId toPeerId answer : String)
  | sIce (fromPeerId toPeerId candidate : String)
  | gOffers (peerId : PeerId)
  | gAnswers (peerId : PeerId)
  | gIce (peerId : PeerId)
deriving Repr, DecidableEq

/-- The visible outcome of one endpoint call. -/
inductive OpResult where
  | err (e : SigError)
  | peers (l : List PeerId)
  | success
  | entries (l : List (PeerId × String))
  | batches (l : List (PeerId × List String))
deriving Repr, DecidableEq

/-- Run one room-scoped endpoint call against the coordinator state; a
thrown error leaves the state as it was. -/
def runOp (s : SigState) (roomId : RoomId) : OpCall → OpResult × SigState
  | .join p =>
    match joinRoom s roomId p with
    | .error e => (.err e, s)
    | .ok (l, s') => (.peers l, s')
  | .sOffer f t o =>
    match sendOffer s roomId f t o with
    | .error e => (.err e, s)
    | .ok (_, s') => (.success, s')
  | .sAnswer f t a =>
    match sendAnswer s roomId f t a with
    | .error e => (.err e, s)
    | .ok (_, s') => (.success, s')
  | .sIce f t c =>
    match sendIceCandidate s roomId f t c with
    | .error e => (.err e, s)
    | .ok (_, s') => (.success, s')
  | .gOffers p =>
    match getOffers s roomId p with
    | .error e => (.err e, s)
    | .ok (l, s') => (.entries l, s')
  | .gAnswers p =>
    match getAnswers s roomId p with
    | .error e => (.err e, s)
    | .ok (l, s') => (.entries l, s')
  | .gIce p =>
    match getIceCandidates s roomId p with
    | .error e => (.err e, s)
    | .ok (l, s') => (.batches l, s')

/-! ### Association-list lemmas -/

theorem jsGet_jsSet_self {α : Type} (m : List (String × α)) (k : String) (v : α) :
    jsGet (jsSet m k v) k = some v := by
  induction m with
  | nil => simp [jsGet, jsSet]
  | cons hd tl ih =>
    obtain ⟨a, b⟩ := hd
    by_cases h1 : a = k <;> simp [jsGet, jsSet, h1, ih]

theorem jsGet_jsSet_ne {α : Type} (m : List (String × α)) (k k' : String) (v : α)
    (h : k' ≠ k) : jsGet (jsSet m k v) k' = jsGet m k' := by
  induction m with
  | nil => simp [jsGet, jsSet, Ne.symm h]
  | cons hd tl ih =>
    obtain ⟨a, b⟩ := hd
    by_cases h1 : a = k
    · subst h1
      simp [jsGet, jsSet, Ne.symm h]
    · simp [jsGet, jsSet, h1, ih]

theorem jsSet_jsSet_self {α : Type} (m : List (String × α)) (k : String) (v w : α) :
    jsSet (jsSet m k v) k w = jsSet m k w := by
  induction m with
  | nil => simp [jsSet]
  | cons hd tl ih =>
    obtain ⟨a, b⟩ := hd
    by_cases h1 : a = k <;> simp [jsSet, h1, ih]

theorem jsSet_eq_of_jsGet {α : Type} (m : List (String × α)) (k : String) (v : α)
    (h : jsGet m k = some v) : jsSet m k v = m := by
  induction m with
  | nil => simp [jsGet] at h
  | cons hd tl ih =>
    obtain ⟨a, b⟩ := hd
    by_cases h1 : a = k
    · subst h1
      simp [jsGet] at h
      simp [jsSet, h]
    · simp only [jsGet, if_neg h1] at h
      simp [jsSet, h1, ih h]

theorem jsSet_map_fst {α : Type} (m : List (String × α)) (k : String) (v w : α)
    (h : jsGet m k = some v) :
    (jsSet m k w).map Prod.fst = m.map Prod.fst := by
  induction m with
  | nil => simp [jsGet] at h
  | cons hd tl ih =>
    obtain ⟨a, b⟩ := hd
    by_cases h1 : a = k
    · subst h1
      simp [jsSet]
    · simp only [jsGet, if_neg h1] at h
      simp [jsSet, h1, ih h]

theorem jsGet_eq_none_iff {α : Type} (m : List (String × α)) (k : String) :
    jsGet m k = none ↔ k ∉ m.map Prod.fst := by
  induction m with
  | nil => simp [jsGet]
  | cons hd tl ih =>
    obtain ⟨a, b⟩ := hd
    by_cases h1 : a = k
    · subst h1
      simp [jsGet]
    · simp [jsGet, h1, ih, Ne.symm h1]

/-! ### Lemmas about the read loops -/

theorem collectOffers_keys_sub (ps : List (PeerId × Mailbox)) (p : PeerId) :
    ∀ e ∈ collectOffers ps p, e.1 ∈ ps.map Prod.fst ∧ e.1 ≠ p := by
  induction ps with
  | nil => simp [collectOffers]
  | cons hd tl ih =>
    obtain ⟨f, d⟩ := hd
    intro e he
    simp only [collectOffers, List.mem_append] at he
    rcases he with he | he
    · constructor
      · split at he
        · split at he
          · simp only [List.mem_singleton] at he
            subst he
            simp
          · simp at he
        · simp at he
      · split at he
        · split at he
          · rename_i hc
            simp only [List.mem_singleton] at he
            subst he
            exact hc.1
          · simp at he
        · simp at he
    · obtain ⟨hmem, hne⟩ := ih e he
      exact ⟨by simp [hmem], hne⟩

theorem collectOffers_filter_of_not_mem (ps : List (PeerId × Mailbox)) (p A : PeerId)
    (h : A ∉ ps.map Prod.fst) :
    (collectOffers ps p).filter (fun e => e.1 == A) = [] := by
  rw [List.filter_eq_nil_iff]
  intro e he
  simp only [beq_iff_eq]
  intro hEq
  exact h (hEq ▸ (collectOffers_keys_sub ps p e he).1)

theorem collectOffers_filter (ps : List (PeerId × Mailbox)) (p A : PeerId)
    (mbA : Mailbox) (hnd : (ps.map Prod.fst).Nodup) (hA : jsGet ps A = some mbA)
    (hAp : A ≠ p) :
    (collectOffers ps p).filter (fun e => e.1 == A) =
      match jsGet mbA.offers p with
      | some o => if o ≠ "" then [(A, o)] else []
      | none => [] := by
  induction ps with
  | nil => simp [jsGet] at hA
  | cons hd tl ih =>
    obtain ⟨f, d⟩ := hd
    simp only [List.map_cons, List.nodup_cons] at hnd
    by_cases h1 : f = A
    · subst h1
      simp only [jsGet, if_pos] at hA
      obtain rfl := Option.some.inj hA
      rw [show collectOffers ((f, d) :: tl) p =
        (match jsGet d.offers p with
         | some o => if f ≠ p ∧ o ≠ "" then [(f, o)] else []
         | none => []) ++ collectOffers tl p from rfl]
      rw [List.filter_append, collectOffers_filter_of_not_mem tl p f hnd.1]
      rcases hg : jsGet d.offers p with _ | o
      · simp
      · by_cases ho : o = "" <;> simp [hg, hAp, ho]
    · have hA' : jsGet tl A = some mbA := by
        simpa only [jsGet, if_neg h1] using hA
      rw [show collectOffers ((f, d) :: tl) p =
        (match jsGet d.offers p with
         | some o => if f ≠ p ∧ o ≠ "" then [(f, o)] else []
         | none => []) ++ collectOffers tl p from rfl]
      rw [List.filter_append, ih hnd.2 hA']
      rcases hg : jsGet d.offers p with _ | o
      · simp
      · by_cases hc : f ≠ p ∧ o ≠ "" <;> simp [hc, h1]

theorem collectOffers_mem (ps : List (PeerId × Mailbox)) (p A : PeerId)
    (mbA : Mailbox) (o : String) (hA : jsGet ps A = some mbA) (hAp : A ≠ p)
    (hg : jsGet mbA.offers p = some o) (ho : o ≠ "") :
    (A, o) ∈ collectOffers ps p := by
  induction ps with
  | nil => simp [jsGet] at hA
  | cons hd tl ih =>
    obtain ⟨f, d⟩ := hd
    simp only [collectOffers, List.mem_append]
    by_cases h1 : f = A
    · subst h1
      simp only [jsGet, if_pos] at hA
      obtain rfl := Option.some.inj hA
      left
      simp [hg, hAp, ho]
    · right
      exact ih (by simpa only [jsGet, if_neg h1] using hA)

theorem collectAnswers_keys_sub (ps : List (PeerId × Mailbox)) (p : PeerId) :
    ∀ e ∈ collectAnswers ps p, e.1 ∈ ps.map Prod.fst ∧ e.1 ≠ p := by
  induction ps with
  | nil => simp [collectAnswers]
  | cons hd tl ih =>
    obtain ⟨f, d⟩ := hd
    intro e he
    simp only [collectAnswers, List.mem_append] at he
    rcases he with he | he
    · constructor
      · split at he
        · split at he
          · simp only [List.mem_singleton] at he
            subst he
            simp
          · simp at he
        · simp at he
      · split at he
        · split at he
          · rename_i hc
            simp only [List.mem_singleton] at he
            subst he
            exact hc.1
          · simp at he
        · simp at he
    · obtain ⟨hmem, hne⟩ := ih e he
      exact ⟨by simp [hmem], hne⟩

theorem collectAnswers_filter_of_not_mem (ps : List (PeerId × Mailbox)) (p A : PeerId)
    (h : A ∉ ps.map Prod.fst) :
    (collectAnswers ps p).filter (fun e => e.1 == A) = [] := by
  rw [List.filter_eq_nil_iff]
  intro e he
  simp only [beq_iff_eq]
  intro hEq
  exact h (hEq ▸ (collectAnswers_keys_sub ps p e he).1)

theorem collectAnswers_filter (ps : List (PeerId × Mailbox)) (p A : PeerId)
    (mbA : Mailbox) (hnd : (ps.map Prod.fst).Nodup) (hA : jsGet ps A = some mbA)
    (hAp : A ≠ p) :
    (collectAnswers ps p).filter (fun e => e.1 == A) =
      match jsGet mbA.answers p with
      | some a => if a ≠ "" then [(A, a)] else []
      | none => [] := by
  induction ps with
  | nil => simp [jsGet] at hA
  | cons hd tl ih =>
    obtain ⟨f, d⟩ := hd
    simp only [List.map_cons, List.nodup_cons] at hnd
    by_cases h1 : f = A
    · subst h1
      simp only [jsGet, if_pos] at hA
      obtain rfl := Option.some.inj hA
      rw [show collectAnswers ((f, d) :: tl) p =
        (match jsGet d.answers p with
         | some a => if f ≠ p ∧ a ≠ "" then [(f, a)] else []
         | none => []) ++ collectAnswers tl p from rfl]
      rw [List.filter_append, collectAnswers_filter_of_not_mem tl p f hnd.1]
      rcases hg : jsGet d.answers p with _ | a
      · simp
      · by_cases ha : a = "" <;> simp [hg, hAp, ha]
    · have hA' : jsGet tl A = some mbA := by
        simpa only [jsGet, if_neg h1] using hA
      rw [show collectAnswers ((f, d) :: tl) p =
        (match jsGet d.answers p with
         | some a => if f ≠ p ∧ a ≠ "" then [(f, a)] else []
         | none => []) ++ collectAnswers tl p from rfl]
      rw [List.filter_append, ih hnd.2 hA']
      rcases hg : jsGet d.answers p with _ | a
      · simp
      · by_cases hc : f ≠ p ∧ a ≠ "" <;> simp [hc, h1]

theorem collectAnswers_mem (ps : List (PeerId × Mailbox)) (p A : PeerId)
    (mbA : Mailbox) (a : String) (hA : jsGet ps A = some mbA) (hAp : A ≠ p)
    (hg : jsGet mbA.answers p = some a) (ha : a ≠ "") :
    (A, a) ∈ collectAnswers ps p := by
  induction ps with
  | nil => simp [jsGet] at hA
  | cons hd tl ih =>
    obtain ⟨f, d⟩ := hd
    simp only [collectAnswers, List.mem_append]
    by_cases h1 : f = A
    · subst h1
      simp only [jsGet, if_pos] at hA
      obtain rfl := Option.some.inj hA
      left
      simp [hg, hAp, ha]
    · right
      exact ih (by simpa only [jsGet, if_neg h1] using hA)

theorem drainCandidates_cons_pos (f : PeerId) (d : Mailbox)
    (tl : List (PeerId × Mailbox)) (p : PeerId)
    (hc : f ≠ p ∧ (jsGet d.iceCandidates p).getD [] ≠ []) :
    drainCandidates ((f, d) :: tl) p =
      ((f, (jsGet d.iceCandidates p).getD []) :: (drainCandidates tl p).1,
       (f, { d with iceCandidates := jsSet d.iceCandidates p [] })
         :: (drainCandidates tl p).2) := by
  simp [drainCandidates, hc]

theorem drainCandidates_cons_neg (f : PeerId) (d : Mailbox)
    (tl : List (PeerId × Mailbox)) (p : PeerId)
    (hc : ¬(f ≠ p ∧ (jsGet d.iceCandidates p).getD [] ≠ [])) :
    drainCandidates ((f, d) :: tl) p =
      ((drainCandidates tl p).1, (f, d) :: (drainCandidates tl p).2) := by
  simp only [drainCandidates, if_neg hc]

theorem drainCandidates_batch_sub (ps : List (PeerId × Mailbox)) (p : PeerId) :
    ∀ e ∈ (drainCandidates ps p).1, e.1 ∈ ps.map Prod.fst ∧ e.1 ≠ p := by
  induction ps with
  | nil => simp [drainCandidates]
  | cons hd tl ih =>
    obtain ⟨f, d⟩ := hd
    intro e he
    by_cases hc : f ≠ p ∧ (jsGet d.iceCandidates p).getD [] ≠ []
    · rw [drainCandidates_cons_pos f d tl p hc] at he
      simp only [List.mem_cons] at he
      rcases he with he | he
      · subst he
        exact ⟨by simp, hc.1⟩
      · obtain ⟨hmem, hne⟩ := ih e he
        exact ⟨by simp [hmem], hne⟩
    · rw [drainCandidates_cons_neg f d tl p hc] at he
      obtain ⟨hmem, hne⟩ := ih e he
      exact ⟨by simp [hmem], hne⟩

theorem drainCandidates_batch_filter_of_not_mem (ps : List (PeerId × Mailbox))
    (p A : PeerId) (h : A ∉ ps.map Prod.fst) :
    ((drainCandidates ps p).1).filter (fun e => e.1 == A) = [] := by
  rw [List.filter_eq_nil_iff]
  intro e he
  simp only [beq_iff_eq]
  intro hEq
  exact h (hEq ▸ (drainCandidates_batch_sub ps p e he).1)

theorem drainCandidates_batch_filter (ps : List (PeerId × Mailbox)) (p A : PeerId)
    (mbA : Mailbox) (hnd : (ps.map Prod.fst).Nodup) (hA : jsGet ps A = some mbA)
    (hAp : A ≠ p) :
    ((drainCandidates ps p).1).filter (fun e => e.1 == A) =
      if (jsGet mbA.iceCandidates p).getD [] = [] then []
      else [(A, (jsGet mbA.iceCandidates p).getD [])] := by
  induction ps with
  | nil => simp [jsGet] at hA
  | cons hd tl ih =>
    obtain ⟨f, d⟩ := hd
    simp only [List.map_cons, List.nodup_cons] at hnd
    by_cases h1 : f = A
    · subst h1
      simp only [jsGet, if_pos] at hA
      obtain rfl := Option.some.inj hA
      by_cases hq : (jsGet d.iceCandidates p).getD [] = []
      · rw [drainCandidates_cons_neg f d tl p (fun h => h.2 hq)]
        rw [drainCandidates_batch_filter_of_not_mem tl p f hnd.1]
        simp [hq]
      · rw [drainCandidates_cons_pos f d tl p ⟨hAp, hq⟩]
        rw [List.filter_cons_of_pos (by simp)]
        rw [drainCandidates_batch_filter_of_not_mem tl p f hnd.1]
        simp [hq]
    · have hA' : jsGet tl A = some mbA := by
        simpa only [jsGet, if_neg h1] using hA
      by_cases hc : f ≠ p ∧ (jsGet d.iceCandidates p).getD [] ≠ []
      · rw [drainCandidates_cons_pos f d tl p hc]
        rw [List.filter_cons_of_neg (by simp [h1])]
        exact ih hnd.2 hA'
      · rw [drainCandidates_cons_neg f d tl p hc]
        exact ih hnd.2 hA'

theorem drainCandidates_map_fst (ps : List (PeerId × Mailbox)) (p : PeerId) :
    ((drainCandidates ps p).2).map Prod.fst = ps.map Prod.fst := by
  induction ps with
  | nil => simp [drainCandidates]
  | cons hd tl ih =>
    obtain ⟨f, d⟩ := hd
    by_cases hc : f ≠ p ∧ (jsGet d.iceCandidates p).getD [] ≠ []
    · rw [drainCandidates_cons_pos f d tl p hc]
      simp [ih]
    · rw [drainCandidates_cons_neg f d tl p hc]
      simp [ih]

theorem drainCandidates_get (ps : List (PeerId × Mailbox)) (p A : PeerId) :
    jsGet (drainCandidates ps p).2 A =
      (jsGet ps A).map (fun d =>
        if A ≠ p ∧ (jsGet d.iceCandidates p).getD [] ≠ [] then
          { d with iceCandidates := jsSet d.iceCandidates p [] }
        else d) := by
  induction ps with
  | nil => simp [drainCandidates, jsGet]
  | cons hd tl ih =>
    obtain ⟨f, d⟩ := hd
    by_cases hc : f ≠ p ∧ (jsGet d.iceCandidates p).getD [] ≠ []
    · rw [drainCandidates_cons_pos f d tl p hc]
      by_cases h1 : f = A
      · subst h1
        simp [jsGet, hc]
      · simp [jsGet, h1, ih]
    · rw [drainCandidates_cons_neg f d tl p hc]
      by_cases h1 : f = A
      · subst h1
        simp [jsGet, hc]
      · simp [jsGet, h1, ih]

/-! ### Characterization of the endpoints on known inputs -/

theorem joinRoom_notFound (s : SigState) (r : RoomId) (p : PeerId)
    (hr : jsGet s.rooms r = none) : joinRoom s r p = .error .NotFound := by
  simp [joinRoom, hr]

theorem joinRoom_ok_new (s : SigState) (r : RoomId) (p : PeerId) (room : Room)
    (hr : jsGet s.rooms r = some room) (hm : jsGet room.participants p = none) :
    joinRoom s r p = .ok
      ((((jsSet room.participants p emptyMailbox).map Prod.fst).filter
          (fun pid => pid != p)),
       ⟨jsSet s.rooms r
         { room with participants := jsSet room.participants p emptyMailbox }⟩) := by
  simp [joinRoom, hr, hm]

theorem joinRoom_ok_old (s : SigState) (r : RoomId) (p : PeerId) (room : Room)
    (mb : Mailbox) (hr : jsGet s.rooms r = some room)
    (hm : jsGet room.participants p = some mb) :
    joinRoom s r p = .ok
      (((room.participants.map Prod.fst).filter (fun pid => pid != p)),
       ⟨jsSet s.rooms r { room with participants := room.participants }⟩) := by
  simp [joinRoom, hr, hm]

theorem sendOffer_ok (s : SigState) (r : RoomId) (A B : PeerId) (o : String)
    (room : Room) (mb : Mailbox) (hr : jsGet s.rooms r = some room)
    (hm : jsGet room.participants A = some mb) :
    sendOffer s r A B o = .ok ((),
      ⟨jsSet s.rooms r
        { room with participants := jsSet room.participants A { mb with offers := jsSet mb.offers B o } }⟩) := by
  simp [sendOffer, hr, hm]

theorem sendAnswer_ok (s : SigState) (r : RoomId) (A B : PeerId) (a : String)
    (room : Room) (mb : Mailbox) (hr : jsGet s.rooms r = some room)
    (hm : jsGet room.participants A = some mb) :
    sendAnswer s r A B a = .ok ((),
      ⟨jsSet s.rooms r
        { room with participants := jsSet room.participants A { mb with answers := jsSet mb.answers B a } }⟩) := by
  simp [sendAnswer, hr, hm]

theorem sendIceCandidate_ok (s : SigState) (r : RoomId) (A B : PeerId) (c : String)
    (room : Room) (mb : Mailbox) (hr : jsGet s.rooms r = some room)
    (hm : jsGet room.participants A = some mb) :
    sendIceCandidate s r A B c = .ok ((),
      ⟨jsSet s.rooms r
        { room with participants := jsSet room.participants A { mb with iceCandidates := jsSet mb.iceCandidates B (((jsGet mb.iceCandidates B).getD []) ++ [c]) } }⟩) := by
  simp [sendIceCandidate, hr, hm]

theorem sendOffer_peerNotFound (s : SigState) (r : RoomId) (A B : PeerId)
    (o : String) (room : Room) (hr : jsGet s.rooms r = some room)
    (hm : jsGet room.participants A = none) :
    sendOffer s r A B o = .error .PeerNotFound := by
  simp [sendOffer, hr, hm]

theorem sendAnswer_peerNotFound (s : SigState) (r : RoomId) (A B : PeerId)
    (a : String) (room : Room) (hr : jsGet s.rooms r = some room)
    (hm : jsGet room.participants A = none) :
    sendAnswer s r A B a = .error .PeerNotFound := by
  simp [sendAnswer, hr, hm]

theorem sendIceCandidate_peerNotFound (s : SigState) (r : RoomId) (A B : PeerId)
    (c : String) (room : Room) (hr : jsGet s.rooms r = some room)
    (hm : jsGet room.participants A = none) :
    sendIceCandidate s r A B c = .error .PeerNotFound := by
  simp [sendIceCandidate, hr, hm]

theorem getOffers_ok (s : SigState) (r : RoomId) (p : PeerId) (room : Room)
    (hr : jsGet s.rooms r = some room) :
    getOffers s r p = .ok (collectOffers room.participants p, s) := by
  simp [getOffers, hr]

theorem getAnswers_ok (s : SigState) (r : RoomId) (p : PeerId) (room : Room)
    (hr : jsGet s.rooms r = some room) :
    getAnswers s r p = .ok (collectAnswers room.participants p, s) := by
  simp [getAnswers, hr]

theorem getIceCandidates_ok (s : SigState) (r : RoomId) (p : PeerId) (room : Room)
    (hr : jsGet s.rooms r = some room) :
    getIceCandidates s r p = .ok ((drainCandidates room.participants p).1,
      ⟨jsSet s.rooms r
        { room with participants := (drainCandidates room.participants p).2 }⟩) := by
  simp [getIceCandidates, hr]

/-! ### Claim theorems -/

theorem joinRoom_ok_old_self (s : SigState) (R : RoomId) (p : PeerId) (room : Room)
    (mb : Mailbox) (hr : jsGet s.rooms R = some room)
    (hm : jsGet room.participants p = some mb) :
    joinRoom s R p =
      .ok ((room.participants.map Prod.fst).filter (fun pid => pid != p), s) := by
  rw [joinRoom_ok_old s R p room mb hr hm]
  rw [show ({ room with participants := room.participants } : Room) = room from rfl]
  rw [jsSet_eq_of_jsGet s.rooms R room hr]

/-- C3: offer/answer reads do not mutate state: whenever `getOffers` (or
`getAnswers`) succeeds, the state it returns is exactly the input state, so
an immediately repeated call (run against the returned state) yields the
identical result.  This mirrors the source, whose `getOffers`/`getAnswers`
handlers only read `room.participants` and never assign into it. -/
theorem C3_reads_pure (s : SigState) (r : RoomId) (p : PeerId) :
    (∀ out s', getOffers s r p = .ok (out, s') →
      s' = s ∧ getOffers s' r p = .ok (out, s'))
    ∧ (∀ out s', getAnswers s r p = .ok (out, s') →
      s' = s ∧ getAnswers s' r p = .ok (out, s')) := by
  constructor
  · intro out s' h
    rcases hr : jsGet s.rooms r with _ | room
    · rw [getOffers] at h
      rw [hr] at h
      simp at h
    · rw [getOffers_ok s r p room hr] at h
      simp only [Except.ok.injEq, Prod.mk.injEq] at h
      obtain ⟨h1, h2⟩ := h
      subst h1
      subst h2
      exact ⟨rfl, getOffers_ok s r p room hr⟩
  · intro out s' h
    rcases hr : jsGet s.rooms r with _ | room
    · rw [getAnswers] at h
      rw [hr] at h
      simp at h
    · rw [getAnswers_ok s r p room hr] at h
      simp only [Except.ok.injEq, Prod.mk.injEq] at h
      obtain ⟨h1, h2⟩ := h
      subst h1
      subst h2
      exact ⟨rfl, getAnswers_ok s r p room hr⟩

/-- C4: all three sends from a `fromPeerId` with no mailbox in an existing
room fail with `PeerNotFound` and leave the coordinator state completely
unchanged (the source throws before any write, so no mailbox is created and
no payload is stored). -/
theorem C4_send_unjoined_fails_cleanly (s : SigState) (r : RoomId) (A B : PeerId)
    (o a c : String) (room : Room) (hr : jsGet s.rooms r = some room)
    (hm : jsGet room.participants A = none) :
    runOp s r (.sOffer A B o) = (.err .PeerNotFound, s)
    ∧ runOp s r (.sAnswer A B a) = (.err .PeerNotFound, s)
    ∧ runOp s r (.sIce A B c) = (.err .PeerNotFound, s) := by
  refine ⟨?_, ?_, ?_⟩
  · rw [runOp, sendOffer_peerNotFound s r A B o room hr hm]
  · rw [runOp, sendAnswer_peerNotFound s r A B a room hr hm]
  · rw [runOp, sendIceCandidate_peerNotFound s r A B c room hr hm]

/-- C5: `joinRoom` succeeds exactly when the room id is registered:
`createRoom` registers an (empty) room under the returned id, joining any
registered room succeeds with a roster that never contains the joining
peer, and joining an unregistered id fails with `NotFound`. -/
theorem C5_joinRoom_iff_registered (s : SigState) (R : RoomId) (p : PeerId) :
    jsGet ((createRoom s R).2).rooms R = some { id := R, participants := [] }
    ∧ (∀ room : Room, jsGet s.rooms R = some room →
        ∃ peers s', joinRoom s R p = .ok (peers, s') ∧ p ∉ peers)
    ∧ (jsGet s.rooms R = none → joinRoom s R p = .error .NotFound) := by
  refine ⟨jsGet_jsSet_self _ _ _, ?_, joinRoom_notFound s R p⟩
  intro room hr
  rcases hm : jsGet room.participants p with _ | mb
  · refine ⟨_, _, joinRoom_ok_new s R p room hr hm, ?_⟩
    simp
  · refine ⟨_, _, joinRoom_ok_old s R p room mb hr hm, ?_⟩
    simp

/-- C6: `joinRoom` is idempotent: if a join succeeded, immediately joining
again returns the same roster and the very same state, so the peer's
existing mailbox (pending offers, answers and candidate queues) is neither
reset nor duplicated. -/
theorem C6_joinRoom_idempotent (s : SigState) (R : RoomId) (p : PeerId)
    (peers : List PeerId) (s1 : SigState)
    (h : joinRoom s R p = .ok (peers, s1)) :
    joinRoom s1 R p = .ok (peers, s1) := by
  rcases hr : jsGet s.rooms R with _ | room
  · rw [joinRoom_notFound s R p hr] at h
    simp at h
  · rcases hm : jsGet room.participants p with _ | mb
    · rw [joinRoom_ok_new s R p room hr hm] at h
      simp only [Except.ok.injEq, Prod.mk.injEq] at h
      obtain ⟨h1, h2⟩ := h
      subst h1
      subst h2
      exact joinRoom_ok_old_self _ R p
        { room with participants := jsSet room.participants p emptyMailbox }
        emptyMailbox (jsGet_jsSet_self _ _ _) (jsGet_jsSet_self _ _ _)
    · rw [joinRoom_ok_old_self s R p room mb hr hm] at h
      simp only [Except.ok.injEq, Prod.mk.injEq] at h
      obtain ⟨h1, h2⟩ := h
      subst h1
      subst h2
      exact joinRoom_ok_old_self s R p room mb hr hm

/-- C10: self-addressed entries are never delivered: every read scan skips
the reader's own mailbox, so no entry returned by `getOffers`, `getAnswers`
or `getIceCandidates` for `peerId = p` has `fromPeerId = p`, and the drain
performed by `getIceCandidates` leaves `p`'s own mailbox (in particular any
self-addressed candidate queue) untouched. -/
theorem C10_no_self_delivery (s : SigState) (r : RoomId) (p : PeerId) (room : Room)
    (hr : jsGet s.rooms r = some room) :
    (∃ out, getOffers s r p = .ok (out, s) ∧ ∀ e ∈ out, e.1 ≠ p)
    ∧ (∃ out, getAnswers s r p = .ok (out, s) ∧ ∀ e ∈ out, e.1 ≠ p)
    ∧ (∃ batch s', getIceCandidates s r p = .ok (batch, s')
        ∧ (∀ e ∈ batch, e.1 ≠ p)
        ∧ ∀ room', jsGet s'.rooms r = some room' →
            jsGet room'.participants p = jsGet room.participants p) := by
  refine ⟨⟨_, getOffers_ok s r p room hr, ?_⟩,
    ⟨_, getAnswers_ok s r p room hr, ?_⟩,
    ⟨_, _, getIceCandidates_ok s r p room hr, ?_, ?_⟩⟩
  · intro e he
    exact (collectOffers_keys_sub room.participants p e he).2
  · intro e he
    exact (collectAnswers_keys_sub room.participants p e he).2
  · intro e he
    exact (drainCandidates_batch_sub room.participants p e he).2
  · intro room' hr'
    rw [jsGet_jsSet_self] at hr'
    obtain rfl := Option.some.inj hr'
    rw [show ({ room with participants := (drainCandidates room.participants p).2 } : Room).participants = (drainCandidates room.participants p).2 from rfl]
    rw [drainCandidates_get room.participants p p]
    rcases jsGet room.participants p with _ | d
    · rfl
    · simp

/-- C1: candidate accumulation and draining: from a state where sender `A`
has joined the room and has no pending candidates queued for `B`, sending
`c1`, `c2`, `c3` to `B` succeeds; `B`'s next `getIceCandidates` returns all
three in the single batch entry for `A`, and the immediately following
`getIceCandidates` returns no batch entry for `A` at all (the `(A, B)`
queue was cleared as part of the first read). -/
theorem C1_candidate_accumulate_drain (s : SigState) (r : RoomId) (A B : PeerId)
    (c1 c2 c3 : String) (room : Room) (mb : Mailbox)
    (hr : jsGet s.rooms r = some room)
    (hm : jsGet room.participants A = some mb)
    (hAB : A ≠ B)
    (hnd : (room.participants.map Prod.fst).Nodup)
    (hq0 : (jsGet mb.iceCandidates B).getD [] = []) :
    ∃ s1 s2 s3 batch s4 batch2 s5,
      sendIceCandidate s r A B c1 = .ok ((), s1)
      ∧ sendIceCandidate s1 r A B c2 = .ok ((), s2)
      ∧ sendIceCandidate s2 r A B c3 = .ok ((), s3)
      ∧ getIceCandidates s3 r B = .ok (batch, s4)
      ∧ batch.filter (fun e => e.1 == A) = [(A, [c1, c2, c3])]
      ∧ getIceCandidates s4 r B = .ok (batch2, s5)
      ∧ batch2.filter (fun e => e.1 == A) = [] := by
  have h1 := sendIceCandidate_ok s r A B c1 room mb hr hm
  rw [hq0, List.nil_append] at h1
  refine ⟨_, _, _, _, _, _, _, h1,
    sendIceCandidate_ok _ r A B c2 _ _ (jsGet_jsSet_self _ _ _) (jsGet_jsSet_self _ _ _),
    sendIceCandidate_ok _ r A B c3 _ _ (jsGet_jsSet_self _ _ _) (jsGet_jsSet_self _ _ _),
    getIceCandidates_ok _ r B _ (jsGet_jsSet_self _ _ _),
    ?_,
    getIceCandidates_ok _ r B _ (jsGet_jsSet_self _ _ _),
    ?_⟩
  · dsimp only
    simp only [jsGet_jsSet_self, jsSet_jsSet_self, Option.getD_some, List.cons_append,
      List.nil_append, List.singleton_append]
    rw [drainCandidates_batch_filter _ B A
      { mb with iceCandidates := jsSet mb.iceCandidates B [c1, c2, c3] }
      (by rw [jsSet_map_fst room.participants A mb _ hm]; exact hnd)
      (jsGet_jsSet_self _ _ _) hAB]
    simp [jsGet_jsSet_self]
  · dsimp only
    simp only [jsGet_jsSet_self, jsSet_jsSet_self, Option.getD_some, List.cons_append,
      List.nil_append, List.singleton_append]
    have hA2 : jsGet ((drainCandidates (jsSet room.participants A { mb with iceCandidates := jsSet mb.iceCandidates B [c1, c2, c3] }) B).2) A = some { mb with iceCandidates := jsSet mb.iceCandidates B [] } := by
      rw [drainCandidates_get, jsGet_jsSet_self]
      simp [hAB, jsGet_jsSet_self, jsSet_jsSet_self]
    rw [drainCandidates_batch_filter _ B A
      { mb with iceCandidates := jsSet mb.iceCandidates B [] }
      (by rw [drainCandidates_map_fst, jsSet_map_fst room.participants A mb _ hm]; exact hnd)
      hA2 hAB]
    simp [jsGet_jsSet_self]

theorem drainCandidates_batch_mem (ps : List (PeerId × Mailbox)) (p A : PeerId)
    (mbA : Mailbox) (hA : jsGet ps A = some mbA) (hAp : A ≠ p)
    (hq : (jsGet mbA.iceCandidates p).getD [] ≠ []) :
    (A, (jsGet mbA.iceCandidates p).getD []) ∈ (drainCandidates ps p).1 := by
  induction ps with
  | nil => simp [jsGet] at hA
  | cons hd tl ih =>
    obtain ⟨f, d⟩ := hd
    by_cases h1 : f = A
    · subst h1
      simp only [jsGet, if_pos] at hA
      obtain rfl := Option.some.inj hA
      rw [drainCandidates_cons_pos f d tl p ⟨hAp, hq⟩]
      simp
    · have hA' : jsGet tl A = some mbA := by
        simpa only [jsGet, if_neg h1] using hA
      by_cases hc : f ≠ p ∧ (jsGet d.iceCandidates p).getD [] ≠ []
      · rw [drainCandidates_cons_pos f d tl p hc]
        exact List.mem_cons_of_mem _ (ih hA')
      · rw [drainCandidates_cons_neg f d tl p hc]
        exact ih hA'

/-- C2: last-write-wins for the offer and answer channels, for payloads the
reader can see: if `A` (having joined) sends `p1` then `p2` to `B`, where
the second payload is a nonempty string, `B`'s next `getOffers` returns
exactly one entry from `A`, carrying `p2` (the older `p1` was overwritten);
likewise for `sendAnswer`/`getAnswers`.  (The nonemptiness proviso is
forced by the source: the read tests the stored string for JS truthiness,
so an empty second payload overwrites the first but is then not returned —
see the counterexample accompanying this claim.) -/
theorem C2_last_write_wins (s : SigState) (r : RoomId) (A B : PeerId)
    (p1 p2 q1 q2 : String) (room : Room) (mb : Mailbox)
    (hr : jsGet s.rooms r = some room)
    (hm : jsGet room.participants A = some mb)
    (hAB : A ≠ B)
    (hnd : (room.participants.map Prod.fst).Nodup)
    (hp2 : p2 ≠ "") (hq2 : q2 ≠ "") :
    (∃ s1 s2 out s3,
      sendOffer s r A B p1 = .ok ((), s1)
      ∧ sendOffer s1 r A B p2 = .ok ((), s2)
      ∧ getOffers s2 r B = .ok (out, s3)
      ∧ out.filter (fun e => e.1 == A) = [(A, p2)])
    ∧ (∃ s1 s2 out s3,
      sendAnswer s r A B q1 = .ok ((), s1)
      ∧ sendAnswer s1 r A B q2 = .ok ((), s2)
      ∧ getAnswers s2 r B = .ok (out, s3)
      ∧ out.filter (fun e => e.1 == A) = [(A, q2)]) := by
  constructor
  · refine ⟨_, _, _, _, sendOffer_ok s r A B p1 room mb hr hm,
      sendOffer_ok _ r A B p2 _ _ (jsGet_jsSet_self _ _ _) (jsGet_jsSet_self _ _ _),
      getOffers_ok _ r B _ (jsGet_jsSet_self _ _ _), ?_⟩
    dsimp only
    simp only [jsSet_jsSet_self]
    rw [collectOffers_filter _ B A { mb with offers := jsSet mb.offers B p2 }
      (by rw [jsSet_map_fst room.participants A mb _ hm]; exact hnd)
      (jsGet_jsSet_self _ _ _) hAB]
    simp [jsGet_jsSet_self, hp2]
  · refine ⟨_, _, _, _, sendAnswer_ok s r A B q1 room mb hr hm,
      sendAnswer_ok _ r A B q2 _ _ (jsGet_jsSet_self _ _ _) (jsGet_jsSet_self _ _ _),
      getAnswers_ok _ r B _ (jsGet_jsSet_self _ _ _), ?_⟩
    dsimp only
    simp only [jsSet_jsSet_self]
    rw [collectAnswers_filter _ B A { mb with answers := jsSet mb.answers B q2 }
      (by rw [jsSet_map_fst room.participants A mb _ hm]; exact hnd)
      (jsGet_jsSet_self _ _ _) hAB]
    simp [jsGet_jsSet_self, hq2]

/-- C7: sends tolerate an unknown recipient, with the payload retrievable
once the recipient reads: if the room exists, `A` has joined, and `toPeerId
= B` has no mailbox, then `sendOffer`, `sendAnswer` and `sendIceCandidate`
addressed to `B` all succeed, and a subsequent read by `B` returns the
payload — provided the offer/answer payload is a nonempty string (the read
drops falsy strings; candidates are returned whatever their contents — see
the counterexample accompanying this claim). -/
theorem C7_send_to_unknown_peer (s : SigState) (r : RoomId) (A B : PeerId)
    (o a c : String) (room : Room) (mb : Mailbox)
    (hr : jsGet s.rooms r = some room)
    (hm : jsGet room.participants A = some mb)
    (hB : jsGet room.participants B = none)
    (ho : o ≠ "") (ha : a ≠ "") :
    (∃ s1 out s2, sendOffer s r A B o = .ok ((), s1)
      ∧ getOffers s1 r B = .ok (out, s2) ∧ (A, o) ∈ out)
    ∧ (∃ s1 out s2, sendAnswer s r A B a = .ok ((), s1)
      ∧ getAnswers s1 r B = .ok (out, s2) ∧ (A, a) ∈ out)
    ∧ (∃ s1 batch s2 q, sendIceCandidate s r A B c = .ok ((), s1)
      ∧ getIceCandidates s1 r B = .ok (batch, s2) ∧ (A, q) ∈ batch ∧ c ∈ q) := by
  have hAB : A ≠ B := by
    intro h
    rw [h, hB] at hm
    cases hm
  refine ⟨?_, ?_, ?_⟩
  · refine ⟨_, _, _, sendOffer_ok s r A B o room mb hr hm,
      getOffers_ok _ r B _ (jsGet_jsSet_self _ _ _), ?_⟩
    dsimp only
    exact collectOffers_mem _ B A { mb with offers := jsSet mb.offers B o } o
      (jsGet_jsSet_self _ _ _) hAB (jsGet_jsSet_self _ _ _) ho
  · refine ⟨_, _, _, sendAnswer_ok s r A B a room mb hr hm,
      getAnswers_ok _ r B _ (jsGet_jsSet_self _ _ _), ?_⟩
    dsimp only
    exact collectAnswers_mem _ B A { mb with answers := jsSet mb.answers B a } a
      (jsGet_jsSet_self _ _ _) hAB (jsGet_jsSet_self _ _ _) ha
  · refine ⟨_, _, _, ((jsGet mb.iceCandidates B).getD []) ++ [c],
      sendIceCandidate_ok s r A B c room mb hr hm,
      getIceCandidates_ok _ r B _ (jsGet_jsSet_self _ _ _), ?_, by simp⟩
    dsimp only
    have := drainCandidates_batch_mem
      (jsSet room.participants A { mb with iceCandidates := jsSet mb.iceCandidates B (((jsGet mb.iceCandidates B).getD []) ++ [c]) }) B A
      { mb with iceCandidates := jsSet mb.iceCandidates B (((jsGet mb.iceCandidates B).getD []) ++ [c]) }
      (jsGet_jsSet_self _ _ _) hAB (by simp [jsGet_jsSet_self])
    simpa [jsGet_jsSet_self] using this

/-- C8: nonempty payloads are stored and forwarded verbatim: for any
nonempty offer/answer payload and for any candidate payload whatsoever,
sending it and then reading as the addressed peer returns exactly the sent
string, unchanged.  (For offers/answers the nonemptiness proviso is forced
by the source, whose read drops JS-falsy strings — see the counterexample
accompanying this claim; candidate queues are returned verbatim with no
look at their contents.) -/
theorem C8_payloads_verbatim (s : SigState) (r : RoomId) (A B : PeerId)
    (o a c : String) (room : Room) (mb : Mailbox)
    (hr : jsGet s.rooms r = some room)
    (hm : jsGet room.participants A = some mb)
    (hAB : A ≠ B)
    (hnd : (room.participants.map Prod.fst).Nodup)
    (ho : o ≠ "") (ha : a ≠ "") :
    (∃ s1 out s2, sendOffer s r A B o = .ok ((), s1)
      ∧ getOffers s1 r B = .ok (out, s2)
      ∧ out.filter (fun e => e.1 == A) = [(A, o)])
    ∧ (∃ s1 out s2, sendAnswer s r A B a = .ok ((), s1)
      ∧ getAnswers s1 r B = .ok (out, s2)
      ∧ out.filter (fun e => e.1 == A) = [(A, a)])
    ∧ (∃ s1 batch s2, sendIceCandidate s r A B c = .ok ((), s1)
      ∧ getIceCandidates s1 r B = .ok (batch, s2)
      ∧ batch.filter (fun e => e.1 == A) =
          [(A, ((jsGet mb.iceCandidates B).getD []) ++ [c])]) := by
  refine ⟨?_, ?_, ?_⟩
  · refine ⟨_, _, _, sendOffer_ok s r A B o room mb hr hm,
      getOffers_ok _ r B _ (jsGet_jsSet_self _ _ _), ?_⟩
    dsimp only
    rw [collectOffers_filter _ B A { mb with offers := jsSet mb.offers B o }
      (by rw [jsSet_map_fst room.participants A mb _ hm]; exact hnd)
      (jsGet_jsSet_self _ _ _) hAB]
    simp [jsGet_jsSet_self, ho]
  · refine ⟨_, _, _, sendAnswer_ok s r A B a room mb hr hm,
      getAnswers_ok _ r B _ (jsGet_jsSet_self _ _ _), ?_⟩
    dsimp only
    rw [collectAnswers_filter _ B A { mb with answers := jsSet mb.answers B a }
      (by rw [jsSet_map_fst room.participants A mb _ hm]; exact hnd)
      (jsGet_jsSet_self _ _ _) hAB]
    simp [jsGet_jsSet_self, ha]
  · refine ⟨_, _, _, sendIceCandidate_ok s r A B c room mb hr hm,
      getIceCandidates_ok _ r B _ (jsGet_jsSet_self _ _ _), ?_⟩
    dsimp only
    rw [drainCandidates_batch_filter _ B A
      { mb with iceCandidates := jsSet mb.iceCandidates B (((jsGet mb.iceCandidates B).getD []) ++ [c]) }
      (by rw [jsSet_map_fst room.participants A mb _ hm]; exact hnd)
      (jsGet_jsSet_self _ _ _) hAB]
    simp [jsGet_jsSet_self]

/-- C9: room isolation: any of the seven room-scoped endpoint calls aimed
at room id `r` (i) leaves the registry entry of every other room id `R2`
unchanged, and (ii) has a result and an effect on `r`'s entry that depend
only on `r`'s entry — two states agreeing on room `r` produce the same
visible result and the same room `r` afterwards. -/
theorem C9_room_isolation (s t : SigState) (r R2 : RoomId) (c : OpCall) :
    (R2 ≠ r → jsGet (runOp s r c).2.rooms R2 = jsGet s.rooms R2)
    ∧ (jsGet s.rooms r = jsGet t.rooms r →
        (runOp s r c).1 = (runOp t r c).1
        ∧ jsGet (runOp s r c).2.rooms r = jsGet (runOp t r c).2.rooms r) := by
  cases c with
  | join p =>
    constructor
    · intro hne
      rcases hr : jsGet s.rooms r with _ | room
      · simp [runOp, joinRoom_notFound s r p hr]
      · rcases hm : jsGet room.participants p with _ | mb
        · simp [runOp, joinRoom_ok_new s r p room hr hm, jsGet_jsSet_ne _ _ _ _ hne]
        · simp [runOp, joinRoom_ok_old s r p room mb hr hm, jsGet_jsSet_ne _ _ _ _ hne]
    · intro ht
      rcases hr : jsGet s.rooms r with _ | room
      · have hrt : jsGet t.rooms r = none := by rw [← ht, hr]
        simp only [runOp, joinRoom_notFound s r p hr, joinRoom_notFound t r p hrt]
        exact ⟨by simp, by simp [hr, hrt]⟩
      · have hrt : jsGet t.rooms r = some room := by rw [← ht, hr]
        rcases hm : jsGet room.participants p with _ | mb
        · simp [runOp, joinRoom_ok_new s r p room hr hm,
            joinRoom_ok_new t r p room hrt hm, jsGet_jsSet_self]
        · simp [runOp, joinRoom_ok_old s r p room mb hr hm,
            joinRoom_ok_old t r p room mb hrt hm, jsGet_jsSet_self]
  | sOffer f g o =>
    constructor
    · intro hne
      rcases hr : jsGet s.rooms r with _ | room
      · simp [runOp, sendOffer, hr]
      · rcases hm : jsGet room.participants f with _ | mb
        · simp [runOp, sendOffer_peerNotFound s r f g o room hr hm]
        · simp [runOp, sendOffer_ok s r f g o room mb hr hm, jsGet_jsSet_ne _ _ _ _ hne]
    · intro ht
      rcases hr : jsGet s.rooms r with _ | room
      · have hrt : jsGet t.rooms r = none := by rw [← ht, hr]
        simp only [runOp, sendOffer, hr, hrt]
        exact ⟨by simp, by simp [hr, hrt]⟩
      · have hrt : jsGet t.rooms r = some room := by rw [← ht, hr]
        rcases hm : jsGet room.participants f with _ | mb
        · simp only [runOp, sendOffer_peerNotFound s r f g o room hr hm,
            sendOffer_peerNotFound t r f g o room hrt hm]
          exact ⟨by simp, by simp [hr, hrt]⟩
        · simp [runOp, sendOffer_ok s r f g o room mb hr hm,
            sendOffer_ok t r f g o room mb hrt hm, jsGet_jsSet_self]
  | sAnswer f g a =>
    constructor
    · intro hne
      rcases hr : jsGet s.rooms r with _ | room
      · simp [runOp, sendAnswer, hr]
      · rcases hm : jsGet room.participants f with _ | mb
        · simp [runOp, sendAnswer_peerNotFound s r f g a room hr hm]
        · simp [runOp, sendAnswer_ok s r f g a room mb hr hm, jsGet_jsSet_ne _ _ _ _ hne]
    · intro ht
      rcases hr : jsGet s.rooms r with _ | room
      · have hrt : jsGet t.rooms r = none := by rw [← ht, hr]
        simp only [runOp, sendAnswer, hr, hrt]
        exact ⟨by simp, by simp [hr, hrt]⟩
      · have hrt : jsGet t.rooms r = some room := by rw [← ht, hr]
        rcases hm : jsGet room.participants f with _ | mb
        · simp only [runOp, sendAnswer_peerNotFound s r f g a room hr hm,
            sendAnswer_peerNotFound t r f g a room hrt hm]
          exact ⟨by simp, by simp [hr, hrt]⟩
        · simp [runOp, sendAnswer_ok s r f g a room mb hr hm,
            sendAnswer_ok t r f g a room mb hrt hm, jsGet_jsSet_self]
  | sIce f g cand =>
    constructor
    · intro hne
      rcases hr : jsGet s.rooms r with _ | room
      · simp [runOp, sendIceCandidate, hr]
      · rcases hm : jsGet room.participants f with _ | mb
        · simp [runOp, sendIceCandidate_peerNotFound s r f g cand room hr hm]
        · simp [runOp, sendIceCandidate_ok s r f g cand room mb hr hm,
            jsGet_jsSet_ne _ _ _ _ hne]
    · intro ht
      rcases hr : jsGet s.rooms r with _ | room
      · have hrt : jsGet t.rooms r = none := by rw [← ht, hr]
        simp only [runOp, sendIceCandidate, hr, hrt]
        exact ⟨by simp, by simp [hr, hrt]⟩
      · have hrt : jsGet t.rooms r = some room := by rw [← ht, hr]
        rcases hm : jsGet room.participants f with _ | mb
        · simp only [runOp, sendIceCandidate_peerNotFound s r f g cand room hr hm,
            sendIceCandidate_peerNotFound t r f g cand room hrt hm]
          exact ⟨by simp, by simp [hr, hrt]⟩
        · simp [runOp, sendIceCandidate_ok s r f g cand room mb hr hm,
            sendIceCandidate_ok t r f g cand room mb hrt hm, jsGet_jsSet_self]
  | gOffers p =>
    constructor
    · intro hne
      rcases hr : jsGet s.rooms r with _ | room
      · simp [runOp, getOffers, hr]
      · simp [runOp, getOffers_ok s r p room hr]
    · intro ht
      rcases hr : jsGet s.rooms r with _ | room
      · have hrt : jsGet t.rooms r = none := by rw [← ht, hr]
        simp only [runOp, getOffers, hr, hrt]
        exact ⟨by simp, by simp [hr, hrt]⟩
      · have hrt : jsGet t.rooms r = some room := by rw [← ht, hr]
        simp only [runOp, getOffers_ok s r p room hr, getOffers_ok t r p room hrt]
        exact ⟨by simp, by simp [hr, hrt]⟩
  | gAnswers p =>
    constructor
    · intro hne
      rcases hr : jsGet s.rooms r with _ | room
      · simp [runOp, getAnswers, hr]
      · simp [runOp, getAnswers_ok s r p room hr]
    · intro ht
      rcases hr : jsGet s.rooms r with _ | room
      · have hrt : jsGet t.rooms r = none := by rw [← ht, hr]
        simp only [runOp, getAnswers, hr, hrt]
        exact ⟨by simp, by simp [hr, hrt]⟩
      · have hrt : jsGet t.rooms r = some room := by rw [← ht, hr]
        simp only [runOp, getAnswers_ok s r p room hr, getAnswers_ok t r p room hrt]
        exact ⟨by simp, by simp [hr, hrt]⟩
  | gIce p =>
    constructor
    · intro hne
      rcases hr : jsGet s.rooms r with _ | room
      · simp [runOp, getIceCandidates, hr]
      · simp [runOp, getIceCandidates_ok s r p room hr, jsGet_jsSet_ne _ _ _ _ hne]
    · intro ht
      rcases hr : jsGet s.rooms r with _ | room
      · have hrt : jsGet t.rooms r = none := by rw [← ht, hr]
        simp only [runOp, getIceCandidates, hr, hrt]
        exact ⟨by simp, by simp [hr, hrt]⟩
      · have hrt : jsGet t.rooms r = some room := by rw [← ht, hr]
        simp [runOp, getIceCandidates_ok s r p room hr,
          getIceCandidates_ok t r p room hrt, jsGet_jsSet_self]

/-! ### Counterexamples forced by JS string truthiness on reads -/

/-- C2 counterexample: with `O2 = ""`, `A` overwrites `"x"` with `""` but
`B`'s `getOffers` then returns no entry from `A` at all — it does not
return `O2`, refuting the unrestricted claim. -/
theorem C2_counterexample_empty_overwrite :
    sendOffer ⟨[("r2", ⟨"r2", [("a2", ⟨[], [], []⟩)]⟩)]⟩ "r2" "a2" "b2" "x"
      = .ok ((), ⟨[("r2", ⟨"r2", [("a2", ⟨[("b2", "x")], [], []⟩)]⟩)]⟩)
    ∧ sendOffer ⟨[("r2", ⟨"r2", [("a2", ⟨[("b2", "x")], [], []⟩)]⟩)]⟩ "r2" "a2" "b2" ""
      = .ok ((), ⟨[("r2", ⟨"r2", [("a2", ⟨[("b2", "")], [], []⟩)]⟩)]⟩)
    ∧ getOffers ⟨[("r2", ⟨"r2", [("a2", ⟨[("b2", "")], [], []⟩)]⟩)]⟩ "r2" "b2"
      = .ok ([], ⟨[("r2", ⟨"r2", [("a2", ⟨[("b2", "")], [], []⟩)]⟩)]⟩) :=
  ⟨rfl, rfl, rfl⟩

/-- C7 counterexample: a send of the empty-string offer to a not-yet-joined
peer succeeds, but that peer's `getOffers` does not return the payload (the
read's truthiness test drops it), refuting the unrestricted claim. -/
theorem C7_counterexample_empty_to_unknown :
    sendOffer ⟨[("r7", ⟨"r7", [("a7", ⟨[], [], []⟩)]⟩)]⟩ "r7" "a7" "b7" ""
      = .ok ((), ⟨[("r7", ⟨"r7", [("a7", ⟨[("b7", "")], [], []⟩)]⟩)]⟩)
    ∧ getOffers ⟨[("r7", ⟨"r7", [("a7", ⟨[("b7", "")], [], []⟩)]⟩)]⟩ "r7" "b7"
      = .ok ([], ⟨[("r7", ⟨"r7", [("a7", ⟨[("b7", "")], [], []⟩)]⟩)]⟩) :=
  ⟨rfl, rfl⟩

/-- C8 counterexample: the empty payload string is stored verbatim but the
read drops it because `""` is JS-falsy, so the coordinator does drop a
payload based on its contents, refuting the unrestricted claim. -/
theorem C8_counterexample_empty_dropped :
    sendOffer ⟨[("r8", ⟨"r8", [("a8", ⟨[], [], []⟩), ("b8", ⟨[], [], []⟩)]⟩)]⟩ "r8" "a8" "b8" ""
      = .ok ((), ⟨[("r8", ⟨"r8", [("a8", ⟨[("b8", "")], [], []⟩), ("b8", ⟨[], [], []⟩)]⟩)]⟩)
    ∧ getOffers ⟨[("r8", ⟨"r8", [("a8", ⟨[("b8", "")], [], []⟩), ("b8", ⟨[], [], []⟩)]⟩)]⟩ "r8" "b8"
      = .ok ([], ⟨[("r8", ⟨"r8", [("a8", ⟨[("b8", "")], [], []⟩), ("b8", ⟨[], [], []⟩)]⟩)]⟩) :=
  ⟨rfl, rfl⟩

/-! ### Concrete witnesses -/

theorem C1_witness :
    ∃ s1 s2 s3 batch s4 batch2 s5,
      sendIceCandidate ⟨[("r", ⟨"r", [("A", ⟨[], [], []⟩)]⟩)]⟩ "r" "A" "B" "c1" = .ok ((), s1)
      ∧ sendIceCandidate s1 "r" "A" "B" "c2" = .ok ((), s2)
      ∧ sendIceCandidate s2 "r" "A" "B" "c3" = .ok ((), s3)
      ∧ getIceCandidates s3 "r" "B" = .ok (batch, s4)
      ∧ batch.filter (fun e => e.1 == "A") = [("A", ["c1", "c2", "c3"])]
      ∧ getIceCandidates s4 "r" "B" = .ok (batch2, s5)
      ∧ batch2.filter (fun e => e.1 == "A") = [] :=
  C1_candidate_accumulate_drain ⟨[("r", ⟨"r", [("A", ⟨[], [], []⟩)]⟩)]⟩ "r" "A" "B"
    "c1" "c2" "c3" ⟨"r", [("A", ⟨[], [], []⟩)]⟩ ⟨[], [], []⟩
    (by decide) (by decide) (by decide) (by decide) (by decide)

theorem C2_witness :
    (∃ s1 s2 out s3,
      sendOffer ⟨[("rw", ⟨"rw", [("aw", ⟨[], [], []⟩)]⟩)]⟩ "rw" "aw" "bw" "o1" = .ok ((), s1)
      ∧ sendOffer s1 "rw" "aw" "bw" "o2" = .ok ((), s2)
      ∧ getOffers s2 "rw" "bw" = .ok (out, s3)
      ∧ out.filter (fun e => e.1 == "aw") = [("aw", "o2")])
    ∧ (∃ s1 s2 out s3,
      sendAnswer ⟨[("rw", ⟨"rw", [("aw", ⟨[], [], []⟩)]⟩)]⟩ "rw" "aw" "bw" "n1" = .ok ((), s1)
      ∧ sendAnswer s1 "rw" "aw" "bw" "n2" = .ok ((), s2)
      ∧ getAnswers s2 "rw" "bw" = .ok (out, s3)
      ∧ out.filter (fun e => e.1 == "aw") = [("aw", "n2")]) :=
  C2_last_write_wins ⟨[("rw", ⟨"rw", [("aw", ⟨[], [], []⟩)]⟩)]⟩ "rw" "aw" "bw"
    "o1" "o2" "n1" "n2" ⟨"rw", [("aw", ⟨[], [], []⟩)]⟩ ⟨[], [], []⟩
    (by decide) (by decide) (by decide) (by decide) (by decide) (by decide)

theorem C3_witness :
    (⟨[("rv", ⟨"rv", [("av", ⟨[("bv", "ov")], [], []⟩)]⟩)]⟩ : SigState)
      = ⟨[("rv", ⟨"rv", [("av", ⟨[("bv", "ov")], [], []⟩)]⟩)]⟩
    ∧ getOffers ⟨[("rv", ⟨"rv", [("av", ⟨[("bv", "ov")], [], []⟩)]⟩)]⟩ "rv" "bv"
      = .ok ([("av", "ov")], ⟨[("rv", ⟨"rv", [("av", ⟨[("bv", "ov")], [], []⟩)]⟩)]⟩) :=
  (C3_reads_pure ⟨[("rv", ⟨"rv", [("av", ⟨[("bv", "ov")], [], []⟩)]⟩)]⟩ "rv" "bv").1
    [("av", "ov")] ⟨[("rv", ⟨"rv", [("av", ⟨[("bv", "ov")], [], []⟩)]⟩)]⟩ (by rfl)

theorem C4_witness :
    runOp ⟨[("rx", ⟨"rx", []⟩)]⟩ "rx" (.sOffer "xx" "yy" "oo")
      = (.err .PeerNotFound, ⟨[("rx", ⟨"rx", []⟩)]⟩)
    ∧ runOp ⟨[("rx", ⟨"rx", []⟩)]⟩ "rx" (.sAnswer "xx" "yy" "nn")
      = (.err .PeerNotFound, ⟨[("rx", ⟨"rx", []⟩)]⟩)
    ∧ runOp ⟨[("rx", ⟨"rx", []⟩)]⟩ "rx" (.sIce "xx" "yy" "cc")
      = (.err .PeerNotFound, ⟨[("rx", ⟨"rx", []⟩)]⟩) :=
  C4_send_unjoined_fails_cleanly ⟨[("rx", ⟨"rx", []⟩)]⟩ "rx" "xx" "yy" "oo" "nn" "cc"
    ⟨"rx", []⟩ (by decide) (by decide)

theorem C5_witness :
    (∃ peers s', joinRoom ⟨[("rr", ⟨"rr", []⟩)]⟩ "rr" "pp" = .ok (peers, s') ∧ "pp" ∉ peers)
    ∧ joinRoom ⟨[("rr", ⟨"rr", []⟩)]⟩ "zz" "pp" = .error .NotFound
    ∧ jsGet ((createRoom ⟨[("rr", ⟨"rr", []⟩)]⟩ "nn").2).rooms "nn"
      = some { id := "nn", participants := [] } :=
  ⟨(C5_joinRoom_iff_registered ⟨[("rr", ⟨"rr", []⟩)]⟩ "rr" "pp").2.1 ⟨"rr", []⟩ (by decide),
   (C5_joinRoom_iff_registered ⟨[("rr", ⟨"rr", []⟩)]⟩ "zz" "pp").2.2 (by decide),
   (C5_joinRoom_iff_registered ⟨[("rr", ⟨"rr", []⟩)]⟩ "nn" "pp").1⟩

theorem C6_witness :
    joinRoom ⟨[("rj", ⟨"rj", [("pj", ⟨[], [], []⟩)]⟩)]⟩ "rj" "pj"
      = .ok ([], ⟨[("rj", ⟨"rj", [("pj", ⟨[], [], []⟩)]⟩)]⟩) :=
  C6_joinRoom_idempotent ⟨[("rj", ⟨"rj", []⟩)]⟩ "rj" "pj" []
    ⟨[("rj", ⟨"rj", [("pj", ⟨[], [], []⟩)]⟩)]⟩ (by rfl)

theorem C7_witness :
    (∃ s1 out s2,
      sendOffer ⟨[("ru", ⟨"ru", [("au", ⟨[], [], []⟩)]⟩)]⟩ "ru" "au" "bu" "ou" = .ok ((), s1)
      ∧ getOffers s1 "ru" "bu" = .ok (out, s2) ∧ ("au", "ou") ∈ out)
    ∧ (∃ s1 out s2,
      sendAnswer ⟨[("ru", ⟨"ru", [("au", ⟨[], [], []⟩)]⟩)]⟩ "ru" "au" "bu" "nu" = .ok ((), s1)
      ∧ getAnswers s1 "ru" "bu" = .ok (out, s2) ∧ ("au", "nu") ∈ out)
    ∧ (∃ s1 batch s2 q,
      sendIceCandidate ⟨[("ru", ⟨"ru", [("au", ⟨[], [], []⟩)]⟩)]⟩ "ru" "au" "bu" "cu" = .ok ((), s1)
      ∧ getIceCandidates s1 "ru" "bu" = .ok (batch, s2) ∧ ("au", q) ∈ batch ∧ "cu" ∈ q) :=
  C7_send_to_unknown_peer ⟨[("ru", ⟨"ru", [("au", ⟨[], [], []⟩)]⟩)]⟩ "ru" "au" "bu"
    "ou" "nu" "cu" ⟨"ru", [("au", ⟨[], [], []⟩)]⟩ ⟨[], [], []⟩
    (by decide) (by decide) (by decide) (by decide) (by decide)

theorem C8_witness :
    (∃ s1 out s2,
      sendOffer ⟨[("rz", ⟨"rz", [("az", ⟨[], [], []⟩)]⟩)]⟩ "rz" "az" "bz" "oz" = .ok ((), s1)
      ∧ getOffers s1 "rz" "bz" = .ok (out, s2)
      ∧ out.filter (fun e => e.1 == "az") = [("az", "oz")])
    ∧ (∃ s1 out s2,
      sendAnswer ⟨[("rz", ⟨"rz", [("az", ⟨[], [], []⟩)]⟩)]⟩ "rz" "az" "bz" "nz" = .ok ((), s1)
      ∧ getAnswers s1 "rz" "bz" = .ok (out, s2)
      ∧ out.filter (fun e => e.1 == "az") = [("az", "nz")])
    ∧ (∃ s1 batch s2,
      sendIceCandidate ⟨[("rz", ⟨"rz", [("az", ⟨[], [], []⟩)]⟩)]⟩ "rz" "az" "bz" "cz" = .ok ((), s1)
      ∧ getIceCandidates s1 "rz" "bz" = .ok (batch, s2)
      ∧ batch.filter (fun e => e.1 == "az") = [("az", ["cz"])]) :=
  C8_payloads_verbatim ⟨[("rz", ⟨"rz", [("az", ⟨[], [], []⟩)]⟩)]⟩ "rz" "az" "bz"
    "oz" "nz" "cz" ⟨"rz", [("az", ⟨[], [], []⟩)]⟩ ⟨[], [], []⟩
    (by decide) (by decide) (by decide) (by decide) (by decide) (by decide)

theorem C9_witness :
    jsGet (runOp ⟨[("r1", ⟨"r1", [("p1", ⟨[], [], []⟩)]⟩), ("r2", ⟨"r2", []⟩)]⟩ "r1" (.join "q1")).2.rooms "r2"
      = jsGet (⟨[("r1", ⟨"r1", [("p1", ⟨[], [], []⟩)]⟩), ("r2", ⟨"r2", []⟩)]⟩ : SigState).rooms "r2"
    ∧ ((runOp ⟨[("r1", ⟨"r1", [("p1", ⟨[], [], []⟩)]⟩), ("r2", ⟨"r2", []⟩)]⟩ "r1" (.join "q1")).1
        = (runOp ⟨[("r1", ⟨"r1", [("p1", ⟨[], [], []⟩)]⟩)]⟩ "r1" (.join "q1")).1
      ∧ jsGet (runOp ⟨[("r1", ⟨"r1", [("p1", ⟨[], [], []⟩)]⟩), ("r2", ⟨"r2", []⟩)]⟩ "r1" (.join "q1")).2.rooms "r1"
        = jsGet (runOp ⟨[("r1", ⟨"r1", [("p1", ⟨[], [], []⟩)]⟩)]⟩ "r1" (.join "q1")).2.rooms "r1") :=
  ⟨(C9_room_isolation ⟨[("r1", ⟨"r1", [("p1", ⟨[], [], []⟩)]⟩), ("r2", ⟨"r2", []⟩)]⟩
      ⟨[("r1", ⟨"r1", [("p1", ⟨[], [], []⟩)]⟩)]⟩ "r1" "r2" (.join "q1")).1 (by decide),
   (C9_room_isolation ⟨[("r1", ⟨"r1", [("p1", ⟨[], [], []⟩)]⟩), ("r2", ⟨"r2", []⟩)]⟩
      ⟨[("r1", ⟨"r1", [("p1", ⟨[], [], []⟩)]⟩)]⟩ "r1" "r2" (.join "q1")).2 (by decide)⟩

theorem C10_witness :
    (∃ out, getOffers ⟨[("rq", ⟨"rq", [("pq", ⟨[("pq", "so")], [], [("pq", ["sc"])]⟩)]⟩)]⟩ "rq" "pq"
        = .ok (out, ⟨[("rq", ⟨"rq", [("pq", ⟨[("pq", "so")], [], [("pq", ["sc"])]⟩)]⟩)]⟩)
      ∧ ∀ e ∈ out, e.1 ≠ "pq")
    ∧ (∃ out, getAnswers ⟨[("rq", ⟨"rq", [("pq", ⟨[("pq", "so")], [], [("pq", ["sc"])]⟩)]⟩)]⟩ "rq" "pq"
        = .ok (out, ⟨[("rq", ⟨"rq", [("pq", ⟨[("pq", "so")], [], [("pq", ["sc"])]⟩)]⟩)]⟩)
      ∧ ∀ e ∈ out, e.1 ≠ "pq")
    ∧ (∃ batch s', getIceCandidates ⟨[("rq", ⟨"rq", [("pq", ⟨[("pq", "so")], [], [("pq", ["sc"])]⟩)]⟩)]⟩ "rq" "pq"
        = .ok (batch, s')
      ∧ (∀ e ∈ batch, e.1 ≠ "pq")
      ∧ ∀ room', jsGet s'.rooms "rq" = some room' →
          jsGet room'.participants "pq"
            = jsGet [("pq", (⟨[("pq", "so")], [], [("pq", ["sc"])]⟩ : Mailbox))] "pq") :=
  C10_no_self_delivery ⟨[("rq", ⟨"rq", [("pq", ⟨[("pq", "so")], [], [("pq", ["sc"])]⟩)]⟩)]⟩
    "rq" "pq" ⟨"rq", [("pq", ⟨[("pq", "so")], [], [("pq", ["sc"])]⟩)]⟩ (by decide)
